import Mathlib

/- Verification development for the WinGo ensemble prediction engine
   (source file l.js).  JavaScript numbers are modelled as exact rationals;
   the transcendental primitives (exp, tanh, sqrt, log2) and the wall clock
   are abstract parameters carried in a `MathPrims` environment.
   Records possibly containing JavaScript `null` entries are modelled as
   `Option Record`; an operation that would throw a TypeError on a `null`
   record is modelled as returning a failure flag. -/

namespace Wingo

/-- BIG/SMALL outcome label, as produced by `toBigSmall`. -/
inductive Label where
  | BIG
  | SMALL
deriving DecidableEq, Repr

/-- The five recent-trend labels assigned by `analyzeMarketState`. -/
inductive TrendLabel where
  | NEUTRAL
  | STRONG_BIG
  | BIAS_BIG
  | STRONG_SMALL
  | BIAS_SMALL
deriving DecidableEq, Repr

/-- Mirrors `marketState.recentTrend.includes('STRONG')` on the five labels. -/
def trendIncludesStrong : TrendLabel → Bool
  | TrendLabel.STRONG_BIG => true
  | TrendLabel.STRONG_SMALL => true
  | _ => false

/-- One outcome record of the data buffer (see `fetchData`). -/
structure Record where
  issueNumber : String
  number : Fin 10
  bigSmall : Label
  binary : ℕ
  timestamp : ℤ
deriving DecidableEq, Repr

/-- toBigSmall from l.js: `n >= 5 ? 'BIG' : 'SMALL'`. -/
def toBigSmall (n : Fin 10) : Label :=
  if 5 ≤ n.val then Label.BIG else Label.SMALL

/-- toBinary from l.js: `n >= 5 ? 1 : 0`. -/
def toBinary (n : Fin 10) : ℕ :=
  if 5 ≤ n.val then 1 else 0

/-- Output of one predictor: `{prediction, confidence, source}`. -/
structure Prediction where
  prediction : Label
  confidence : ℚ
  source : String
deriving DecidableEq, Repr

/-- The `marketState` global object. -/
structure MarketState where
  volatility : ℚ
  bias : ℚ
  entropy : ℚ
  recentTrend : TrendLabel
  confidence : ℚ
  lastUpdate : ℤ
  randomnessQuality : ℚ
  isExploitable : Bool
deriving DecidableEq, Repr

/-- The `trendAnalyzer` global object (three bit windows). -/
structure TrendWindows where
  shortTerm : List ℕ
  mediumTerm : List ℕ
  longTerm : List ℕ
deriving DecidableEq, Repr

/-- The six ensemble model names (keys of `CONFIG.INITIAL_WEIGHTS`). -/
inductive ModelName where
  | pattern
  | markov
  | frequency
  | neural
  | trend
  | quantum
deriving DecidableEq, Repr

/-- The six model names in the iteration order of `CONFIG.INITIAL_WEIGHTS`. -/
def modelList : List ModelName :=
  [ModelName.pattern, ModelName.markov, ModelName.frequency,
   ModelName.neural, ModelName.trend, ModelName.quantum]

/-- Per-model performance entry `{wins, total, recentAccuracy}`. -/
structure Perf where
  wins : ℕ
  total : ℕ
  recentAccuracy : ℚ
deriving DecidableEq, Repr

/-- Count statistics stored in `patternDatabase` and `markovChains`:
    `{counts: new Array(10).fill(0), total: 0}` entries. -/
structure CountStats where
  counts : Fin 10 → ℕ
  total : ℕ

/-- A pattern / Markov table: digit-sequence key to count statistics.
    The JS string keys (digits joined by '' or '-') are in bijection with
    the digit lists themselves, so the list is used as the key. -/
def StatTable : Type := List (Fin 10) → Option CountStats

/-- The empty table (`new Map()` / `.clear()`). -/
def emptyTable : StatTable := fun _ => none

/-- LSTM cell with input size 20 and hidden size 15 (`createLSTMCell(20, 15)`). -/
structure LSTMCell where
  Wi : Fin 15 → Fin 20 → ℚ
  Wf : Fin 15 → Fin 20 → ℚ
  Wo : Fin 15 → Fin 20 → ℚ
  Wc : Fin 15 → Fin 20 → ℚ
  Ui : Fin 15 → Fin 15 → ℚ
  Uf : Fin 15 → Fin 15 → ℚ
  Uo : Fin 15 → Fin 15 → ℚ
  Uc : Fin 15 → Fin 15 → ℚ
  bi : Fin 15 → ℚ
  bf : Fin 15 → ℚ
  bo : Fin 15 → ℚ
  bc : Fin 15 → ℚ
  hidden : Fin 15 → ℚ
  cell : Fin 15 → ℚ

/-- Abstract environment for the JavaScript Math primitives that have no
    exact rational counterpart, plus the clock and the random fresh LSTM
    cell produced by `createLSTMCell`. -/
structure MathPrims where
  exp : ℚ → ℚ
  tanh : ℚ → ℚ
  sqrt : ℚ → ℚ
  log2 : ℚ → ℚ
  now : ℤ
  freshCell : LSTMCell

/-- The mutable global state of l.js that the core operates on. -/
structure SysState where
  modelWeights : ModelName → ℚ
  modelPerformance : ModelName → Perf
  lstmCell : Option LSTMCell
  patternDatabase : StatTable
  markovChains : StatTable
  trendAnalyzer : TrendWindows
  marketState : MarketState
  consecutiveWins : ℕ
  consecutiveLosses : ℕ
  isTraining : Bool

/-- All-zero LSTM cell, used to instantiate the abstract fresh cell in
    closed witnesses. -/
def zeroCell : LSTMCell :=
  { Wi := fun _ _ => 0, Wf := fun _ _ => 0, Wo := fun _ _ => 0, Wc := fun _ _ => 0
    Ui := fun _ _ => 0, Uf := fun _ _ => 0, Uo := fun _ _ => 0, Uc := fun _ _ => 0
    bi := fun _ => 0, bf := fun _ => 0, bo := fun _ => 0, bc := fun _ => 0
    hidden := fun _ => 0, cell := fun _ => 0 }

/-- Concrete instantiation of the abstract Math primitives, used only to
    evaluate closed witnesses; `sqrt` is exact on 0 and 1, which is all the
    witnesses rely on. -/
def testPrims : MathPrims :=
  { exp := fun _ => 1, tanh := fun _ => 0, sqrt := fun q => q, log2 := fun _ => 1
    now := 0, freshCell := zeroCell }

/-- The initial `marketState` object of l.js (its literal lacks the
    `isExploitable` key, i.e. it is undefined, hence falsy). -/
def initialMarketState : MarketState :=
  { volatility := 0, bias := 1 / 2, entropy := 0, recentTrend := TrendLabel.NEUTRAL
    confidence := 1 / 2, lastUpdate := 0, randomnessQuality := 1
    isExploitable := false }

/-- The initial model weights `CONFIG.INITIAL_WEIGHTS`. -/
def INITIAL_WEIGHTS : ModelName → ℚ
  | ModelName.pattern => 15 / 100
  | ModelName.markov => 15 / 100
  | ModelName.frequency => 15 / 100
  | ModelName.neural => 20 / 100
  | ModelName.trend => 15 / 100
  | ModelName.quantum => 20 / 100

/-- The initial global state of l.js. -/
def initialState : SysState :=
  { modelWeights := INITIAL_WEIGHTS
    modelPerformance := fun _ => { wins := 0, total := 0, recentAccuracy := 1 / 2 }
    lstmCell := none
    patternDatabase := emptyTable
    markovChains := emptyTable
    trendAnalyzer := { shortTerm := [], mediumTerm := [], longTerm := [] }
    marketState := initialMarketState
    consecutiveWins := 0
    consecutiveLosses := 0
    isTraining := false }

/-- JS truthiness fallback `x || d` for a numeric `x`. -/
def jsOr (x d : ℚ) : ℚ :=
  if x = 0 then d else x

/-- JS `Math.round`: round half up. -/
def jsRound (q : ℚ) : ℤ :=
  ⌊q + 1 / 2⌋

/-- Sequencing of a list of possibly-null values: `none` anywhere models a
    thrown TypeError when the JS code maps over the records. -/
def seqOpt {α : Type} : List (Option α) → Option (List α)
  | [] => some []
  | none :: _ => none
  | some a :: t => (seqOpt t).map (fun l => a :: l)

lemma seqOpt_of_none {α : Type} (l : List (Option α)) (h : none ∈ l) :
    seqOpt l = none := by
  induction l with
  | nil => cases h
  | cons a t ih =>
    cases a with
    | none => rfl
    | some v =>
      rcases List.mem_cons.mp h with h1 | h2
      · cases h1
      · simp [seqOpt, ih h2]

lemma seqOpt_of_all_some {α : Type} (l : List (Option α)) (h : none ∉ l) :
    seqOpt l = some (l.reduceOption) := by
  induction l with
  | nil => rfl
  | cons a t ih =>
    cases a with
    | none => exact absurd (List.mem_cons_self _ _) h
    | some v =>
      have ht : none ∉ t := fun hc => h (List.mem_cons_of_mem _ hc)
      simp [seqOpt, ih ht, List.reduceOption]

-- ═══════════════════════════════════════════════════════════════
-- STATISTICS UTILITIES
-- ═══════════════════════════════════════════════════════════════

/-- calculateStats from l.js: returns (mean, std, variance). -/
def calculateStats (P : MathPrims) (arr : List ℚ) : ℚ × ℚ × ℚ :=
  if arr.length = 0 then (0, 0, 0)
  else
    let mean := arr.sum / (arr.length : ℚ)
    let variance := (arr.map (fun v => (v - mean) ^ 2)).sum / (arr.length : ℚ)
    (mean, P.sqrt variance, variance)

/-- calculateEntropy from l.js: Shannon entropy over the value frequencies.
    The JS loop sums over `Object.values(freq)`; rational addition is
    commutative so summing over the distinct values in first-occurrence
    order gives the same total. -/
def calculateEntropy (P : MathPrims) (arr : List ℕ) : ℚ :=
  if arr.length = 0 then 0
  else
    (arr.dedup.map (fun v =>
      let p : ℚ := (arr.count v : ℚ) / (arr.length : ℚ)
      if 0 < p then -(p * P.log2 p) else 0)).sum

/-- performRunsTest from l.js: returns (runs, expected, zScore). -/
def performRunsTest (P : MathPrims) (binary : List ℕ) : ℚ × ℚ × ℚ :=
  if binary.length < 10 then (0, 0, 0)
  else
    let runs : ℕ := 1 + ((binary.zip binary.tail).filter
      (fun p => !(p.1 == p.2))).length
    let n1 : ℚ := ((binary.filter (fun b => b == 1)).length : ℚ)
    let n0 : ℚ := (binary.length : ℚ) - n1
    let len : ℚ := (binary.length : ℚ)
    let expected := (2 * n0 * n1) / len + 1
    let variance := (2 * n0 * n1 * (2 * n0 * n1 - len)) / (len ^ 2 * (len - 1))
    let zScore := if 0 < variance then ((runs : ℚ) - expected) / P.sqrt variance
      else 0
    ((runs : ℚ), expected, zScore)

/-- spectralTest from l.js: fraction of consecutive differences with
    absolute value at least 3. -/
def spectralTest (arr : List ℤ) : ℚ :=
  let diffs := (arr.tail.zip arr).map (fun p => p.1 - p.2)
  let highFreq := (diffs.filter (fun d => 3 ≤ |d|)).length
  (highFreq : ℚ) / (if diffs.length = 0 then (1 : ℚ) else (diffs.length : ℚ))

/-- Result of assessRandomnessQuality. -/
structure Randomness where
  entropy : ℚ
  runsZ : ℚ
  spectralBias : ℚ
  isExploitable : Bool
  quality : ℚ

/-- assessRandomnessQuality from l.js. -/
def assessRandomnessQuality (P : MathPrims) (binary : List ℕ) : Randomness :=
  let entropy := calculateEntropy P binary
  let runsTest := performRunsTest P binary
  let spectralBias := spectralTest (binary.map (fun b => (b : ℤ)))
  let isExploitable : Bool :=
    decide (entropy < 92 / 100) && decide (196 / 100 < |runsTest.2.2|)
  { entropy := entropy
    runsZ := runsTest.2.2
    spectralBias := spectralBias
    isExploitable := isExploitable
    quality := 1 - entropy / P.log2 2 }

-- ═══════════════════════════════════════════════════════════════
-- MARKET ANALYSIS
-- ═══════════════════════════════════════════════════════════════

/-- analyzeMarketState from l.js, over possibly-null records; `none` models
    the TypeError thrown when a null record is dereferenced.  With fewer
    than 30 records the prior state is returned unchanged. -/
def analyzeMarketState (P : MathPrims) (data : List (Option Record))
    (prior : MarketState) : Option MarketState :=
  if data.length < 30 then some prior
  else
    match seqOpt (data.take (min 50 data.length)) with
    | none => none
    | some recent50 =>
      let binary := recent50.map (fun d => d.binary)
      let numbers := recent50.map (fun d => ((d.number.val : ℤ) : ℚ))
      let stats := calculateStats P numbers
      let volatility := stats.2.1 / (stats.1 + 1 / 1000)
      let entropy := calculateEntropy P binary
      let bigCount := (binary.filter (fun b => b == 1)).length
      let bias := (bigCount : ℚ) / (binary.length : ℚ)
      let recent10 := binary.take 10
      let bigRecent := (recent10.filter (fun b => b == 1)).length
      let recentTrend :=
        if 7 ≤ bigRecent then TrendLabel.STRONG_BIG
        else if 6 ≤ bigRecent then TrendLabel.BIAS_BIG
        else if bigRecent ≤ 3 then TrendLabel.STRONG_SMALL
        else if bigRecent ≤ 4 then TrendLabel.BIAS_SMALL
        else TrendLabel.NEUTRAL
      let randomness := assessRandomnessQuality P binary
      let confidence := 1 - |bias - 1 / 2| * 2
      some
        { volatility := volatility
          bias := bias
          entropy := entropy
          recentTrend := recentTrend
          confidence := max (3 / 10) (min (9 / 10) confidence)
          randomnessQuality := randomness.quality
          isExploitable := randomness.isExploitable
          lastUpdate := P.now }

-- ═══════════════════════════════════════════════════════════════
-- DATA BUFFER
-- ═══════════════════════════════════════════════════════════════

/-- updateDataBuffer from l.js: the set of already-present period ids is
    computed once up front; new items are unshifted; finally the buffer is
    truncated to capacity 200. -/
def updateDataBuffer (dataBuffer newData : List Record) : List Record :=
  let existingPeriods := dataBuffer.map (fun d => d.issueNumber)
  let buf := newData.foldl
    (fun acc item =>
      if existingPeriods.contains item.issueNumber then acc else item :: acc)
    dataBuffer
  if 200 < buf.length then buf.take 200 else buf

-- ═══════════════════════════════════════════════════════════════
-- THEOREMS: C2 and C10 (data buffer)
-- ═══════════════════════════════════════════════════════════════

lemma updateDataBuffer_foldl (existing : List String) (buf batch : List Record) :
    batch.foldl
      (fun acc item =>
        if existing.contains item.issueNumber then acc else item :: acc) buf
    = (batch.filter (fun i => !(existing.contains i.issueNumber))).reverse ++ buf := by
  induction batch generalizing buf with
  | nil => simp
  | cons a t ih =>
    rw [List.foldl_cons, ih]
    by_cases h : a.issueNumber ∈ existing
    · simp [List.filter_cons, h]
    · simp [List.filter_cons, h]

lemma updateDataBuffer_closed (dataBuffer newData : List Record) :
    updateDataBuffer dataBuffer newData
    = (let ins := (newData.filter
          (fun i => !((dataBuffer.map (fun d => d.issueNumber)).contains
            i.issueNumber))).reverse
       if 200 < (ins ++ dataBuffer).length then (ins ++ dataBuffer).take 200
       else ins ++ dataBuffer) := by
  simp only [updateDataBuffer, updateDataBuffer_foldl]

/-- C2: after any single ingest, the buffer holds at most 200 records; the
    result splits into a head segment of newly inserted batch records
    followed by a prefix (i.e. the newest, order-preserved part) of the old
    buffer, so evictions only remove the oldest tail records. -/
theorem ingest_capacity_and_order (dataBuffer newData : List Record) :
    (updateDataBuffer dataBuffer newData).length ≤ 200 ∧
    ∃ k, (∀ x ∈ (updateDataBuffer dataBuffer newData).take k, x ∈ newData) ∧
      (updateDataBuffer dataBuffer newData).drop k <+: dataBuffer := by
  rw [updateDataBuffer_closed]
  set ins := (newData.filter
      (fun i => !((dataBuffer.map (fun d => d.issueNumber)).contains
        i.issueNumber))).reverse with hins
  have hmem : ∀ x ∈ ins, x ∈ newData := by
    intro x hx
    exact List.mem_of_mem_filter (List.mem_reverse.mp (hins ▸ hx))
  simp only []
  by_cases h : 200 < (ins ++ dataBuffer).length
  · rw [if_pos h]
    refine ⟨by simp, ins.length, ?_, ?_⟩
    · intro x hx
      rw [List.take_take] at hx
      have h1 : ((ins ++ dataBuffer).take (min ins.length 200))
          = ins.take (min ins.length 200) := by
        rw [List.take_append_eq_append_take]
        have h0 : min ins.length 200 - ins.length = 0 := by omega
        simp [h0]
      rw [h1] at hx
      exact hmem x (List.mem_of_mem_take hx)
    · rw [List.drop_take]
      rcases Nat.le_total 200 ins.length with hc | hc
      · have h0 : 200 - ins.length = 0 := by omega
        simp [h0]
      · rw [List.drop_append_eq_append_drop]
        have h0 : ins.length - ins.length = 0 := by omega
        simp only [List.drop_length, List.nil_append, h0, List.drop_zero]
        exact ⟨dataBuffer.drop (200 - ins.length), List.take_append_drop _ _⟩
  · rw [if_neg h]
    refine ⟨by omega, ins.length, ?_, ?_⟩
    · intro x hx
      rw [List.take_left] at hx
      exact hmem x hx
    · rw [List.drop_left]

/-- Witness for C2 at a concrete buffer and batch. -/
theorem ingest_capacity_and_order_witness :
    (updateDataBuffer [] [⟨"p1", 3, Label.SMALL, 0, 0⟩]).length ≤ 200 ∧
    ∃ k, (∀ x ∈ (updateDataBuffer [] [⟨"p1", 3, Label.SMALL, 0, 0⟩]).take k,
            x ∈ [(⟨"p1", 3, Label.SMALL, 0, 0⟩ : Record)]) ∧
      (updateDataBuffer [] [⟨"p1", 3, Label.SMALL, 0, 0⟩]).drop k <+: ([] : List Record) :=
  ingest_capacity_and_order [] [⟨"p1", 3, Label.SMALL, 0, 0⟩]

/-- C10: the already-present id set is computed once before any insertion,
    so (1) a batch containing two fresh records with the same periodId
    inserts both; (2) the no-duplicate-periodId invariant is preserved when
    the batch ids are pairwise distinct; (3) re-ingesting only
    already-present periodIds is a no-op. -/
theorem ingest_duplicate_characterization :
    (∀ (dataBuffer : List Record) (a b : Record),
       a.issueNumber = b.issueNumber →
       a.issueNumber ∉ dataBuffer.map (fun d => d.issueNumber) →
       dataBuffer.length + 2 ≤ 200 →
       updateDataBuffer dataBuffer [a, b] = b :: a :: dataBuffer) ∧
    (∀ (dataBuffer newData : List Record),
       (dataBuffer.map (fun d => d.issueNumber)).Nodup →
       (newData.map (fun d => d.issueNumber)).Nodup →
       ((updateDataBuffer dataBuffer newData).map (fun d => d.issueNumber)).Nodup) ∧
    (∀ (dataBuffer newData : List Record),
       (∀ x ∈ newData, x.issueNumber ∈ dataBuffer.map (fun d => d.issueNumber)) →
       dataBuffer.length ≤ 200 →
       updateDataBuffer dataBuffer newData = dataBuffer) := by
  refine ⟨?_, ?_, ?_⟩
  · intro dataBuffer a b hab hnot hlen
    have hb : b.issueNumber ∉ dataBuffer.map (fun d => d.issueNumber) := hab ▸ hnot
    rw [updateDataBuffer_closed]
    have h1 : ((dataBuffer.map (fun d => d.issueNumber)).contains a.issueNumber)
        = false := by simp [hnot]
    have h2 : ((dataBuffer.map (fun d => d.issueNumber)).contains b.issueNumber)
        = false := by simp [hb]
    simp only [List.filter_cons, List.filter_nil, h1, h2, Bool.not_false, ite_true,
      List.reverse_cons, List.reverse_nil, List.nil_append]
    rw [if_neg (by simp; omega)]
    simp
  · intro dataBuffer newData hbuf hnew
    rw [updateDataBuffer_closed]
    simp only []
    set ins := (newData.filter
        (fun i => !((dataBuffer.map (fun d => d.issueNumber)).contains
          i.issueNumber))).reverse with hins
    have hinsnodup : (ins.map (fun d => d.issueNumber)).Nodup := by
      rw [hins, List.map_reverse, List.nodup_reverse]
      exact hnew.sublist ((List.filter_sublist newData).map _)
    have hdisj : (ins.map (fun d => d.issueNumber)).Disjoint
        (dataBuffer.map (fun d => d.issueNumber)) := by
      intro x hx hx2
      rw [hins, List.map_reverse, List.mem_reverse, List.mem_map] at hx
      rcases hx with ⟨r, hr, hrx⟩
      have := List.of_mem_filter hr
      rw [hrx] at this
      simp only [List.elem_eq_mem, Bool.not_eq_true', decide_eq_false_iff_not] at this
      exact this hx2
    have happ : ((ins ++ dataBuffer).map (fun d => d.issueNumber)).Nodup := by
      rw [List.map_append, List.nodup_append]
      exact ⟨hinsnodup, hbuf, hdisj⟩
    by_cases h : 200 < (ins ++ dataBuffer).length
    · rw [if_pos h, List.map_take]
      exact happ.sublist (List.take_sublist _ _)
    · rw [if_neg h]
      exact happ
  · intro dataBuffer newData hall hlen
    rw [updateDataBuffer_closed]
    have hfil : newData.filter
        (fun i => !((dataBuffer.map (fun d => d.issueNumber)).contains
          i.issueNumber)) = [] := by
      rw [List.filter_eq_nil_iff]
      intro a ha
      simp only [List.elem_eq_mem, Bool.not_eq_true, Bool.not_eq_true',
        decide_eq_false_iff_not, Decidable.not_not]
      exact hall a ha
    simp only [hfil, List.reverse_nil, List.nil_append]
    rw [if_neg (by omega)]

/-- Witness for C10 at concrete inputs: a batch of two fresh records sharing
    a periodId both enter the buffer; a distinct-id batch keeps the buffer
    duplicate-free; an already-present batch is a no-op. -/
theorem ingest_duplicate_characterization_witness :
    updateDataBuffer [] [⟨"p9", 1, Label.SMALL, 0, 0⟩, ⟨"p9", 7, Label.BIG, 1, 0⟩]
      = [⟨"p9", 7, Label.BIG, 1, 0⟩, ⟨"p9", 1, Label.SMALL, 0, 0⟩] ∧
    ((updateDataBuffer [⟨"p1", 2, Label.SMALL, 0, 0⟩] [⟨"p2", 6, Label.BIG, 1, 0⟩]).map
      (fun d => d.issueNumber)).Nodup ∧
    updateDataBuffer [⟨"p1", 2, Label.SMALL, 0, 0⟩] [⟨"p1", 2, Label.SMALL, 0, 0⟩]
      = [⟨"p1", 2, Label.SMALL, 0, 0⟩] := by
  refine ⟨?_, ?_, ?_⟩
  · exact ingest_duplicate_characterization.1 [] _ _ rfl (by simp) (by simp)
  · exact ingest_duplicate_characterization.2.1 _ _ (by simp) (by simp)
  · exact ingest_duplicate_characterization.2.2 _ _ (by intro x hx; simp at hx; simp [hx])
      (by simp)

-- ═══════════════════════════════════════════════════════════════
-- MODEL WEIGHT UPDATE
-- ═══════════════════════════════════════════════════════════════

/-- First phase of updateModelWeights: bump the named model's performance
    entry (`perf.total++`, `perf.wins++` on success, EWMA accuracy). -/
def updatedPerf (modelName : ModelName) (wasCorrect : Bool)
    (modelPerformance : ModelName → Perf) : ModelName → Perf :=
  fun m =>
    if m = modelName then
      { wins := (modelPerformance m).wins + (if wasCorrect then 1 else 0)
        total := (modelPerformance m).total + 1
        recentAccuracy := (modelPerformance m).recentAccuracy * (9 / 10) +
          (if wasCorrect then (1 : ℚ) else 0) * (1 / 10) }
    else modelPerformance m

/-- `totalPerformance` of updateModelWeights: the sum of
    `p.recentAccuracy || 0.5` over all models. -/
def totalPerformanceOf (perf : ModelName → Perf) : ℚ :=
  (modelList.map (fun m => jsOr (perf m).recentAccuracy (1 / 2))).sum

/-- The smoothed blend `weight*0.7 + newWeight*0.3` of updateModelWeights. -/
def blendedWeights (modelWeights : ModelName → ℚ) (perf : ModelName → Perf) :
    ModelName → ℚ :=
  fun m =>
    modelWeights m * (7 / 10) +
      (jsOr (perf m).recentAccuracy (1 / 2) / totalPerformanceOf perf) * (3 / 10)

/-- The final renormalization of updateModelWeights: divide by the total
    weight, or reset every weight to 0.15 if the total is not positive. -/
def finalWeights (modelWeights : ModelName → ℚ) (perf : ModelName → Perf) :
    ModelName → ℚ :=
  fun m =>
    if 0 < (modelList.map (blendedWeights modelWeights perf)).sum then
      blendedWeights modelWeights perf m /
        (modelList.map (blendedWeights modelWeights perf)).sum
    else 15 / 100

/-- updateModelWeights from l.js (known model name; the unknown-name early
    return is outside this total-map model). -/
def updateModelWeights (modelName : ModelName) (wasCorrect : Bool)
    (modelWeights : ModelName → ℚ) (modelPerformance : ModelName → Perf) :
    (ModelName → ℚ) × (ModelName → Perf) :=
  (finalWeights modelWeights (updatedPerf modelName wasCorrect modelPerformance),
   updatedPerf modelName wasCorrect modelPerformance)

lemma jsOr_half_pos (x : ℚ) (h : 0 ≤ x) : 0 < jsOr x (1 / 2) := by
  unfold jsOr
  split_ifs with h0
  · norm_num
  · exact lt_of_le_of_ne h (Ne.symm h0)

lemma sum_map_add_distrib (l : List ModelName) (f g : ModelName → ℚ) :
    (l.map (fun m => f m + g m)).sum = (l.map f).sum + (l.map g).sum := by
  induction l with
  | nil => simp
  | cons a t ih => simp [ih]; ring

lemma sum_map_mul_const (l : List ModelName) (f : ModelName → ℚ) (c : ℚ) :
    (l.map (fun m => f m * c)).sum = (l.map f).sum * c := by
  induction l with
  | nil => simp
  | cons a t ih => simp [ih]; ring

lemma sum_map_div_const (l : List ModelName) (f : ModelName → ℚ) (c : ℚ) :
    (l.map (fun m => f m / c)).sum = (l.map f).sum / c := by
  induction l with
  | nil => simp
  | cons a t ih => simp [ih]; ring

lemma updatedPerf_nonneg (modelName : ModelName) (wasCorrect : Bool)
    (perf : ModelName → Perf) (h : ∀ m, 0 ≤ (perf m).recentAccuracy) (m : ModelName) :
    0 ≤ (updatedPerf modelName wasCorrect perf m).recentAccuracy := by
  by_cases hm : m = modelName
  · simp only [updatedPerf, hm, if_pos]
    cases wasCorrect
    · norm_num
      nlinarith [h modelName]
    · norm_num
      nlinarith [h modelName]
  · simp only [updatedPerf, hm, if_neg, ite_false]
    exact h m

lemma totalPerformanceOf_pos (perf : ModelName → Perf)
    (h : ∀ m, 0 ≤ (perf m).recentAccuracy) : 0 < totalPerformanceOf perf := by
  unfold totalPerformanceOf
  apply List.sum_pos
  · intro x hx
    rcases List.mem_map.mp hx with ⟨m, _, rfl⟩
    exact jsOr_half_pos _ (h m)
  · simp [modelList]

lemma sum_blendedWeights (modelWeights : ModelName → ℚ) (perf : ModelName → Perf)
    (h : ∀ m, 0 ≤ (perf m).recentAccuracy) :
    (modelList.map (blendedWeights modelWeights perf)).sum
      = (modelList.map modelWeights).sum * (7 / 10) + 3 / 10 := by
  unfold blendedWeights
  rw [sum_map_add_distrib, sum_map_mul_const, sum_map_mul_const, sum_map_div_const]
  have hT : 0 < totalPerformanceOf perf := totalPerformanceOf_pos perf h
  have : ((modelList.map (fun m => jsOr (perf m).recentAccuracy (1 / 2))).sum /
      totalPerformanceOf perf) = 1 := by
    rw [div_eq_one_iff_eq (ne_of_gt hT)]
    rfl
  rw [this]
  ring

/-- C3: after an updateModelWeights call on a known model, starting from a
    state with nonnegative weights and nonnegative rolling accuracies, the
    renormalized weight vector sums to exactly 1 (so the zero-total reset
    branch is never taken from such states). -/
theorem updateModelWeights_sum_one (modelName : ModelName) (wasCorrect : Bool)
    (modelWeights : ModelName → ℚ) (modelPerformance : ModelName → Perf)
    (hW : ∀ m, 0 ≤ modelWeights m)
    (hP : ∀ m, 0 ≤ (modelPerformance m).recentAccuracy) :
    (modelList.map
      (updateModelWeights modelName wasCorrect modelWeights modelPerformance).1).sum
      = 1 := by
  have hP1 : ∀ m, 0 ≤ ((updatedPerf modelName wasCorrect modelPerformance) m).recentAccuracy :=
    updatedPerf_nonneg modelName wasCorrect modelPerformance hP
  have hWsum : 0 ≤ (modelList.map modelWeights).sum := by
    apply List.sum_nonneg
    intro x hx
    rcases List.mem_map.mp hx with ⟨m, _, rfl⟩
    exact hW m
  have hB : (modelList.map
      (blendedWeights modelWeights (updatedPerf modelName wasCorrect modelPerformance))).sum
      = (modelList.map modelWeights).sum * (7 / 10) + 3 / 10 :=
    sum_blendedWeights modelWeights _ hP1
  have hBpos : 0 < (modelList.map
      (blendedWeights modelWeights (updatedPerf modelName wasCorrect modelPerformance))).sum := by
    rw [hB]; linarith
  unfold updateModelWeights finalWeights
  simp only [hBpos, if_true]
  rw [sum_map_div_const, div_eq_one_iff_eq (ne_of_gt hBpos)]

/-- Witness for C3 from the initial state after a correct `markov` outcome. -/
theorem updateModelWeights_sum_one_witness :
    (modelList.map
      (updateModelWeights ModelName.markov true INITIAL_WEIGHTS
        (fun _ => { wins := 0, total := 0, recentAccuracy := 1 / 2 })).1).sum = 1 :=
  updateModelWeights_sum_one ModelName.markov true INITIAL_WEIGHTS _
    (by intro m; cases m <;> norm_num [INITIAL_WEIGHTS])
    (by intro m; norm_num)

-- ═══════════════════════════════════════════════════════════════
-- RECOVERY MODE
-- ═══════════════════════════════════════════════════════════════

/-- getRecoveryMode from l.js, checked in source order. -/
def getRecoveryMode (st : SysState) : String :=
  if 3 ≤ st.consecutiveLosses ∧ st.marketState.volatility < 1 / 2 then
    "MARTINGALE_SAFE"
  else if 2 ≤ st.consecutiveLosses ∧ st.marketState.isExploitable = false then
    "CAUTION"
  else if 2 ≤ st.consecutiveLosses ∧ trendIncludesStrong st.marketState.recentTrend then
    "ANTI_TREND"
  else "NORMAL"

/-- applyRecoveryMode from l.js: only ANTI_TREND flips the label. -/
def applyRecoveryMode (basePrediction : Label) (mode : String) : Label :=
  if mode = "ANTI_TREND" then
    (if basePrediction = Label.BIG then Label.SMALL else Label.BIG)
  else basePrediction

/-- C9: ANTI_TREND is only reachable when the market is exploitable (the
    earlier CAUTION branch absorbs every non-exploitable two-loss state),
    the recent trend label contains STRONG, and there are at least two
    consecutive losses. -/
theorem antiTrend_implies_exploitable (st : SysState)
    (h : getRecoveryMode st = "ANTI_TREND") :
    st.marketState.isExploitable = true ∧
    trendIncludesStrong st.marketState.recentTrend = true ∧
    2 ≤ st.consecutiveLosses := by
  unfold getRecoveryMode at h
  split_ifs at h with h1 h2 h3
  · exact absurd h (by decide)
  · exact absurd h (by decide)
  · refine ⟨?_, h3.2, h3.1⟩
    by_contra hc
    exact h2 ⟨h3.1, Bool.not_eq_true _ ▸ hc⟩
  · exact absurd h (by decide)

/-- Witness for C9 at a concrete two-loss exploitable STRONG_BIG state. -/
theorem antiTrend_implies_exploitable_witness :
    ({ initialState with
        consecutiveLosses := 2
        marketState := { initialMarketState with
          isExploitable := true
          recentTrend := TrendLabel.STRONG_BIG } } : SysState).marketState.isExploitable
        = true ∧
    trendIncludesStrong ({ initialState with
        consecutiveLosses := 2
        marketState := { initialMarketState with
          isExploitable := true
          recentTrend := TrendLabel.STRONG_BIG } } : SysState).marketState.recentTrend
        = true ∧
    2 ≤ ({ initialState with
        consecutiveLosses := 2
        marketState := { initialMarketState with
          isExploitable := true
          recentTrend := TrendLabel.STRONG_BIG } } : SysState).consecutiveLosses :=
  antiTrend_implies_exploitable _ (by decide)

-- ═══════════════════════════════════════════════════════════════
-- PATTERN MODEL
-- ═══════════════════════════════════════════════════════════════

/-- SEQUENCE_LENGTHS from CONFIG. -/
def SEQUENCE_LENGTHS : List ℕ := [3, 4, 5, 6, 7, 8]

/-- MARKOV_ORDER from CONFIG. -/
def MARKOV_ORDER : ℕ := 3

/-- The ten digit indices in array order. -/
def digitIdx : List (Fin 10) := [0, 1, 2, 3, 4, 5, 6, 7, 8, 9]

/-- JS `Math.max(...stats.counts)` over the ten counters. -/
def maxCount10 (c : Fin 10 → ℕ) : ℕ :=
  (digitIdx.map c).foldl max 0

/-- JS `stats.counts.indexOf(maxCount)`: the first index attaining the
    maximum (always found, so the -1 case cannot occur). -/
def indexOfMax10 (c : Fin 10 → ℕ) : Fin 10 :=
  (digitIdx.find? (fun i => c i == maxCount10 c)).getD 0

/-- One loop iteration of predictWithPatterns, as a candidate: `some` when
    the current window length yields a table hit with total ≥ 3. -/
def patternCandidate (numbers : List (Fin 10)) (db : StatTable) (len : ℕ) :
    Option (ℚ × Label) :=
  if numbers.length < len + 1 then none
  else
    match db (numbers.take len) with
    | none => none
    | some stats =>
      if 3 ≤ stats.total then
        some ((maxCount10 stats.counts : ℚ) / (stats.total : ℚ),
          toBigSmall (indexOfMax10 stats.counts))
      else none

/-- The strictly-greater update of the running best candidate. -/
def patternStep (numbers : List (Fin 10)) (db : StatTable)
    (best : ℚ × Option Label) (len : ℕ) : ℚ × Option Label :=
  match patternCandidate numbers db len with
  | none => best
  | some cl => if best.1 < cl.1 then (cl.1, some cl.2) else best

/-- predictWithPatterns from l.js. -/
def predictWithPatterns (data : List Record) (db : StatTable) : Prediction :=
  let numbers := data.map (fun d => d.number)
  let best := SEQUENCE_LENGTHS.foldl (patternStep numbers db) (0, none)
  match best.2 with
  | some p => { prediction := p, confidence := best.1, source := "pattern" }
  | none =>
    let recentBig := ((data.take 10).filter
      (fun d => d.bigSmall == Label.BIG)).length
    { prediction := if 5 ≤ recentBig then Label.BIG else Label.SMALL
      confidence := 52 / 100
      source := "pattern_fallback" }

lemma patternStep_of_le (numbers : List (Fin 10)) (db : StatTable)
    (b : ℚ × Option Label) (len : ℕ)
    (h : ∀ p ∈ patternCandidate numbers db len, p.1 ≤ b.1) :
    patternStep numbers db b len = b := by
  unfold patternStep
  cases hc : patternCandidate numbers db len with
  | none => rfl
  | some p =>
    have hp := h p (Option.mem_def.mpr hc)
    dsimp only
    rw [if_neg (not_lt.mpr hp)]

lemma patternStep_of_hit (numbers : List (Fin 10)) (db : StatTable)
    (b : ℚ × Option Label) (len : ℕ) (c : ℚ) (lab : Label)
    (hc : patternCandidate numbers db len = some (c, lab)) (hb : b.1 < c) :
    patternStep numbers db b len = (c, some lab) := by
  unfold patternStep
  rw [hc]
  dsimp only
  rw [if_pos hb]

lemma patternFold_stay (numbers : List (Fin 10)) (db : StatTable) (ls : List ℕ)
    (b : ℚ × Option Label)
    (h : ∀ L ∈ ls, ∀ p ∈ patternCandidate numbers db L, p.1 ≤ b.1) :
    ls.foldl (patternStep numbers db) b = b := by
  induction ls with
  | nil => rfl
  | cons a t ih =>
    rw [List.foldl_cons, patternStep_of_le numbers db b a (h a (List.mem_cons_self a t))]
    exact ih (fun L hL => h L (List.mem_cons_of_mem a hL))

lemma patternFold_lt (numbers : List (Fin 10)) (db : StatTable) (ls : List ℕ)
    (b : ℚ × Option Label) (c : ℚ) (hb : b.1 < c)
    (h : ∀ L ∈ ls, ∀ p ∈ patternCandidate numbers db L, p.1 < c) :
    (ls.foldl (patternStep numbers db) b).1 < c := by
  induction ls generalizing b with
  | nil => exact hb
  | cons a t ih =>
    rw [List.foldl_cons]
    apply ih
    · unfold patternStep
      cases hc : patternCandidate numbers db a with
      | none => exact hb
      | some p =>
        have hp := h a (List.mem_cons_self a t) p (Option.mem_def.mpr hc)
        dsimp only
        split_ifs with hlt
        · exact hp
        · exact hb
    · exact fun L hL => h L (List.mem_cons_of_mem a hL)

lemma patternFold_hit (numbers : List (Fin 10)) (db : StatTable)
    (pre post : List ℕ) (L : ℕ) (c : ℚ) (lab : Label) (b : ℚ × Option Label)
    (hb : b.1 < c)
    (hcand : patternCandidate numbers db L = some (c, lab))
    (hpre : ∀ L' ∈ pre, ∀ p ∈ patternCandidate numbers db L', p.1 < c)
    (hpost : ∀ L' ∈ post, ∀ p ∈ patternCandidate numbers db L', p.1 ≤ c) :
    (pre ++ L :: post).foldl (patternStep numbers db) b = (c, some lab) := by
  rw [List.foldl_append, List.foldl_cons]
  have h1 : ((pre.foldl (patternStep numbers db) b).1) < c :=
    patternFold_lt numbers db pre b c hb hpre
  rw [patternStep_of_hit numbers db _ L c lab hcand h1]
  exact patternFold_stay numbers db post (c, some lab) hpost

/-- C7 (amended): among the qualifying window lengths the candidate with
    strictly greatest confidence wins, and on a confidence tie the
    earlier-tried (smaller) length is retained: if length L qualifies with
    positive confidence c, every earlier length is strictly below c and no
    length exceeds c, then L's candidate is exactly the returned
    prediction. -/
theorem predictWithPatterns_first_max (data : List Record) (db : StatTable)
    (L : ℕ) (c : ℚ) (lab : Label)
    (hL : L ∈ SEQUENCE_LENGTHS)
    (hcand : patternCandidate (data.map (fun d => d.number)) db L = some (c, lab))
    (hpos : 0 < c)
    (hlt : ∀ L' ∈ SEQUENCE_LENGTHS, L' < L →
       ∀ p ∈ patternCandidate (data.map (fun d => d.number)) db L', p.1 < c)
    (hle : ∀ L' ∈ SEQUENCE_LENGTHS,
       ∀ p ∈ patternCandidate (data.map (fun d => d.number)) db L', p.1 ≤ c) :
    predictWithPatterns data db
      = { prediction := lab, confidence := c, source := "pattern" } := by
  have hfold : SEQUENCE_LENGTHS.foldl
      (patternStep (data.map (fun d => d.number)) db) (0, none) = (c, some lab) := by
    fin_cases hL
    · exact patternFold_hit _ db [] [4, 5, 6, 7, 8] 3 c lab (0, none) hpos hcand
        (by intro L' hL'; cases hL')
        (by intro L' hL' p hp; exact hle L' (by fin_cases hL' <;> decide) p hp)
    · exact patternFold_hit _ db [3] [5, 6, 7, 8] 4 c lab (0, none) hpos hcand
        (by intro L' hL' p hp
            exact hlt L' (by fin_cases hL' <;> decide) (by fin_cases hL' <;> decide) p hp)
        (by intro L' hL' p hp; exact hle L' (by fin_cases hL' <;> decide) p hp)
    · exact patternFold_hit _ db [3, 4] [6, 7, 8] 5 c lab (0, none) hpos hcand
        (by intro L' hL' p hp
            exact hlt L' (by fin_cases hL' <;> decide) (by fin_cases hL' <;> decide) p hp)
        (by intro L' hL' p hp; exact hle L' (by fin_cases hL' <;> decide) p hp)
    · exact patternFold_hit _ db [3, 4, 5] [7, 8] 6 c lab (0, none) hpos hcand
        (by intro L' hL' p hp
            exact hlt L' (by fin_cases hL' <;> decide) (by fin_cases hL' <;> decide) p hp)
        (by intro L' hL' p hp; exact hle L' (by fin_cases hL' <;> decide) p hp)
    · exact patternFold_hit _ db [3, 4, 5, 6] [8] 7 c lab (0, none) hpos hcand
        (by intro L' hL' p hp
            exact hlt L' (by fin_cases hL' <;> decide) (by fin_cases hL' <;> decide) p hp)
        (by intro L' hL' p hp; exact hle L' (by fin_cases hL' <;> decide) p hp)
    · exact patternFold_hit _ db [3, 4, 5, 6, 7] [] 8 c lab (0, none) hpos hcand
        (by intro L' hL' p hp
            exact hlt L' (by fin_cases hL' <;> decide) (by fin_cases hL' <;> decide) p hp)
        (by intro L' hL'; cases hL')
  simp only [predictWithPatterns, hfold]

/-- Concrete five-record buffer (digits 1,2,3,4,5 newest first) for the
    pattern tie-break counterexample. -/
def patternData : List Record :=
  [⟨"t1", 1, Label.SMALL, 0, 0⟩, ⟨"t2", 2, Label.SMALL, 0, 0⟩,
   ⟨"t3", 3, Label.SMALL, 0, 0⟩, ⟨"t4", 4, Label.SMALL, 0, 0⟩,
   ⟨"t5", 5, Label.BIG, 1, 0⟩]

/-- Counter vector of the length-3 table entry: majority at digit 2. -/
def counts3 : Fin 10 → ℕ :=
  fun i => if i = 2 then 2 else if i = 0 then 1 else 0

/-- Counter vector of the length-4 table entry: majority at digit 7. -/
def counts4 : Fin 10 → ℕ :=
  fun i => if i = 7 then 2 else if i = 0 then 1 else 0

/-- Concrete pattern table holding a length-3 SMALL candidate and a
    length-4 BIG candidate with equal confidence 2/3. -/
def patternDb : StatTable :=
  fun k =>
    if k = [1, 2, 3] then some { counts := counts3, total := 3 }
    else if k = [1, 2, 3, 4] then some { counts := counts4, total := 3 }
    else none

lemma patternStep_of_none (numbers : List (Fin 10)) (db : StatTable)
    (b : ℚ × Option Label) (len : ℕ)
    (h : patternCandidate numbers db len = none) :
    patternStep numbers db b len = b := by
  unfold patternStep
  rw [h]

lemma patternData_numbers :
    patternData.map (fun d => d.number) = [1, 2, 3, 4, 5] := rfl

lemma cand3_eq :
    patternCandidate [1, 2, 3, 4, 5] patternDb 3 = some (2 / 3, Label.SMALL) := by
  have hmax : maxCount10 counts3 = 2 := by decide
  have hidx : indexOfMax10 counts3 = (2 : Fin 10) := by decide
  unfold patternCandidate
  rw [if_neg (by norm_num)]
  rw [show ([1, 2, 3, 4, 5] : List (Fin 10)).take 3 = [1, 2, 3] from rfl]
  rw [show patternDb [1, 2, 3] = some { counts := counts3, total := 3 } from rfl]
  dsimp only
  rw [if_pos (by norm_num), hmax, hidx]
  norm_num [toBigSmall]

lemma cand4_eq :
    patternCandidate [1, 2, 3, 4, 5] patternDb 4 = some (2 / 3, Label.BIG) := by
  have hmax : maxCount10 counts4 = 2 := by decide
  have hidx : indexOfMax10 counts4 = (7 : Fin 10) := by decide
  unfold patternCandidate
  rw [if_neg (by norm_num)]
  rw [show ([1, 2, 3, 4, 5] : List (Fin 10)).take 4 = [1, 2, 3, 4] from rfl]
  rw [show patternDb [1, 2, 3, 4] = some { counts := counts4, total := 3 } from rfl]
  dsimp only
  rw [if_pos (by norm_num), hmax, hidx]
  rw [show toBigSmall (7 : Fin 10) = Label.BIG from rfl]
  norm_num

lemma candBig_none (len : ℕ) (h : 5 < len + 1) :
    patternCandidate [1, 2, 3, 4, 5] patternDb len = none := by
  unfold patternCandidate
  rw [if_pos (by simpa using h)]

/-- Counterexample to C7 as stated: window lengths 3 and 4 both qualify
    with confidence 2/3, the larger length's candidate is BIG, yet the
    returned prediction is the smaller length's SMALL candidate — a tie is
    broken in favour of the earlier-tried (smaller) length, not the larger
    one. -/
theorem pattern_tie_prefers_smaller_length :
    patternCandidate (patternData.map (fun d => d.number)) patternDb 3
      = some (2 / 3, Label.SMALL) ∧
    patternCandidate (patternData.map (fun d => d.number)) patternDb 4
      = some (2 / 3, Label.BIG) ∧
    predictWithPatterns patternData patternDb
      = { prediction := Label.SMALL, confidence := 2 / 3, source := "pattern" } := by
  refine ⟨?_, ?_, ?_⟩
  · rw [patternData_numbers]
    exact cand3_eq
  · rw [patternData_numbers]
    exact cand4_eq
  · have hfold : SEQUENCE_LENGTHS.foldl (patternStep [1, 2, 3, 4, 5] patternDb)
        (0, none) = (2 / 3, some Label.SMALL) := by
      rw [show SEQUENCE_LENGTHS = [3, 4, 5, 6, 7, 8] from rfl]
      rw [List.foldl_cons,
        patternStep_of_hit [1, 2, 3, 4, 5] patternDb (0, none) 3 (2 / 3) Label.SMALL
          cand3_eq (by norm_num)]
      rw [List.foldl_cons, patternStep_of_le [1, 2, 3, 4, 5] patternDb _ 4 ?hle4]
      case hle4 =>
        intro p hp
        rw [Option.mem_def, cand4_eq, Option.some.injEq] at hp
        rw [← hp]
      rw [List.foldl_cons,
        patternStep_of_none [1, 2, 3, 4, 5] patternDb _ 5 (candBig_none 5 (by norm_num))]
      rw [List.foldl_cons,
        patternStep_of_none [1, 2, 3, 4, 5] patternDb _ 6 (candBig_none 6 (by norm_num))]
      rw [List.foldl_cons,
        patternStep_of_none [1, 2, 3, 4, 5] patternDb _ 7 (candBig_none 7 (by norm_num))]
      rw [List.foldl_cons,
        patternStep_of_none [1, 2, 3, 4, 5] patternDb _ 8 (candBig_none 8 (by norm_num))]
      rfl
    simp only [predictWithPatterns, patternData_numbers, hfold]

/-- Witness for the amended C7 at the same concrete input, applied at the
    smaller qualifying length 3. -/
theorem predictWithPatterns_first_max_witness :
    predictWithPatterns patternData patternDb
      = { prediction := Label.SMALL, confidence := 2 / 3, source := "pattern" } :=
  predictWithPatterns_first_max patternData patternDb 3 (2 / 3) Label.SMALL
    (by decide)
    (by rw [patternData_numbers]; exact cand3_eq)
    (by norm_num)
    (by intro L' hL' hlt3; fin_cases hL' <;> omega)
    (by intro L' hL'
        rw [patternData_numbers]
        fin_cases hL'
        · intro p hp
          rw [Option.mem_def, cand3_eq, Option.some.injEq] at hp
          rw [← hp]
        · intro p hp
          rw [Option.mem_def, cand4_eq, Option.some.injEq] at hp
          rw [← hp]
        · rw [candBig_none 5 (by norm_num)]
          intro p hp
          cases hp
        · rw [candBig_none 6 (by norm_num)]
          intro p hp
          cases hp
        · rw [candBig_none 7 (by norm_num)]
          intro p hp
          cases hp
        · rw [candBig_none 8 (by norm_num)]
          intro p hp
          cases hp)

-- ═══════════════════════════════════════════════════════════════
-- LSTM-LIKE NEURAL NETWORK
-- ═══════════════════════════════════════════════════════════════

/-- sigmoid from l.js with its overflow guards. -/
def sigmoid (P : MathPrims) (x : ℚ) : ℚ :=
  if 700 < x then 1
  else if x < -700 then 0
  else 1 / (1 + P.exp (-x))

/-- The 15 hidden indices in array order. -/
def hiddenIdx : List (Fin 15) := [0, 1, 2, 3, 4, 5, 6, 7, 8, 9, 10, 11, 12, 13, 14]

/-- The 20 input indices in array order. -/
def inputIdx : List (Fin 20) :=
  [0, 1, 2, 3, 4, 5, 6, 7, 8, 9, 10, 11, 12, 13, 14, 15, 16, 17, 18, 19]

/-- JS `row.reduce((sum, w, i) => sum + w * input[i], 0)` over 20 inputs. -/
def dot20 (w : Fin 20 → ℚ) (v : Fin 20 → ℚ) : ℚ :=
  (inputIdx.map (fun i => w i * v i)).sum

/-- JS `row.reduce((sum, w, i) => sum + w * hPrev[i], 0)` over 15 hiddens. -/
def dot15 (w : Fin 15 → ℚ) (v : Fin 15 → ℚ) : ℚ :=
  (hiddenIdx.map (fun i => w i * v i)).sum

/-- forwardLSTM from l.js: one gated update, returning the cell with its
    hidden/cell vectors replaced (the in-place mutation of the source). -/
def forwardLSTM (P : MathPrims) (cell : LSTMCell) (input : Fin 20 → ℚ) : LSTMCell :=
  let inputGate := fun j =>
    sigmoid P (dot20 (cell.Wi j) input + dot15 (cell.Ui j) cell.hidden + cell.bi j)
  let forgetGate := fun j =>
    sigmoid P (dot20 (cell.Wf j) input + dot15 (cell.Uf j) cell.hidden + cell.bf j)
  let candidate := fun j =>
    P.tanh (dot20 (cell.Wc j) input + dot15 (cell.Uc j) cell.hidden + cell.bc j)
  let newC := fun j => forgetGate j * cell.cell j + inputGate j * candidate j
  let outputGate := fun j =>
    sigmoid P (dot20 (cell.Wo j) input + dot15 (cell.Uo j) cell.hidden + cell.bo j)
  let newH := fun j => outputGate j * P.tanh (newC j)
  { cell with hidden := newH, cell := newC }

/-- predictWithLSTM from l.js: creates the cell lazily on first use (the
    fresh randomly-initialized cell is the abstract `P.freshCell`), falls
    back below 20 bits, otherwise runs one forward pass over the 20 most
    recent bits; returns the prediction together with the updated cell
    slot. -/
def predictWithLSTM (P : MathPrims) (data : List Record)
    (lstmCell : Option LSTMCell) : Prediction × Option LSTMCell :=
  match lstmCell with
  | none =>
    ({ prediction := Label.BIG, confidence := 50 / 100, source := "lstm_uninitialized" },
     some P.freshCell)
  | some cell =>
    let binary := data.map (fun d => (d.binary : ℚ))
    if binary.length < 20 then
      ({ prediction := Label.BIG, confidence := 50 / 100, source := "lstm_insufficient" },
       some cell)
    else
      let input : Fin 20 → ℚ := fun i => (binary.take 20).getD i 0
      let cell1 := forwardLSTM P cell input
      let outputSum := (hiddenIdx.map cell1.hidden).sum
      let output := sigmoid P (outputSum / 15)
      let confidence := |output - 1 / 2| * 2
      ({ prediction := if 1 / 2 ≤ output then Label.BIG else Label.SMALL
         confidence := min (confidence + 10 / 100) (80 / 100)
         source := "lstm" },
       some cell1)

/-- Counterexample to C8 as stated: on the very first invocation (cell not
    yet created) with fewer than 20 bits, the source tag is
    `lstm_uninitialized`, not `lstm_insufficient`. -/
theorem lstm_first_call_source_differs :
    (predictWithLSTM testPrims [] none).1.source = "lstm_uninitialized" ∧
    ([] : List Record).length < 20 ∧
    (predictWithLSTM testPrims [] none).1
      ≠ { prediction := Label.BIG, confidence := 50 / 100, source := "lstm_insufficient" } := by
  refine ⟨rfl, by norm_num, ?_⟩
  intro h
  have := congrArg Prediction.source h
  simp only [predictWithLSTM] at this
  exact absurd this (by decide)

/-- C8 (amended): on every call with an already-created cell and fewer than
    20 available bits, predictWithLSTM returns exactly BIG with confidence
    0.50 and source `lstm_insufficient`, leaving the cell untouched; the
    very first invocation instead returns the same neutral prediction with
    source `lstm_uninitialized`. -/
theorem lstm_insufficient_fallback (P : MathPrims) (data : List Record)
    (cell : LSTMCell) (h : data.length < 20) :
    predictWithLSTM P data (some cell)
      = ({ prediction := Label.BIG, confidence := 50 / 100,
           source := "lstm_insufficient" }, some cell) := by
  have hlen : (data.map (fun d => (d.binary : ℚ))).length < 20 := by
    simpa using h
  simp only [predictWithLSTM, hlen, if_pos]

/-- Witness for the amended C8 on a one-record buffer and the zero cell. -/
theorem lstm_insufficient_fallback_witness :
    predictWithLSTM testPrims [⟨"p1", 6, Label.BIG, 1, 0⟩] (some zeroCell)
      = ({ prediction := Label.BIG, confidence := 50 / 100,
           source := "lstm_insufficient" }, some zeroCell) :=
  lstm_insufficient_fallback testPrims [⟨"p1", 6, Label.BIG, 1, 0⟩] zeroCell
    (by norm_num)

-- ═══════════════════════════════════════════════════════════════
-- MARKOV / FREQUENCY / TREND / QUANTUM PREDICTORS
-- ═══════════════════════════════════════════════════════════════

/-- One iteration of the predictWithMarkov loop at a given order: a hit
    needs enough records, a table entry for the joined recent-digit key and
    total ≥ 2. -/
def markovTry (data : List Record) (chains : StatTable) (order : ℕ) :
    Option Prediction :=
  if data.length < order + 1 then none
  else
    match chains ((data.take order).map (fun d => d.number)) with
    | none => none
    | some stats =>
      if 2 ≤ stats.total then
        some { prediction := toBigSmall (indexOfMax10 stats.counts)
               confidence := (maxCount10 stats.counts : ℚ) / (stats.total : ℚ)
               source := "markov_order" ++ toString order }
      else none

/-- predictWithMarkov from l.js: orders 3, 2, 1 (MARKOV_ORDER downwards),
    then the anti-persistence fallback on the newest record.  The fallback
    dereferences `data[0]`, which throws on an empty buffer — modelled as
    `none`. -/
def predictWithMarkov (data : List Record) (chains : StatTable) :
    Option Prediction :=
  match markovTry data chains 3 with
  | some r => some r
  | none =>
    match markovTry data chains 2 with
    | some r => some r
    | none =>
      match markovTry data chains 1 with
      | some r => some r
      | none =>
        data.head?.map (fun d =>
          { prediction := if d.bigSmall = Label.BIG then Label.SMALL else Label.BIG
            confidence := 51 / 100
            source := "markov_fallback" })

/-- One window entry of predictWithFrequency. -/
structure FreqVote where
  prediction : Label
  confidence : ℚ
  weight : ℚ
deriving DecidableEq, Repr

/-- One window of predictWithFrequency (skipped when the buffer is smaller
    than the window). -/
def freqVote (data : List Record) (window : ℕ) : Option FreqVote :=
  if data.length < window then none
  else
    let bigCount := ((data.take window).filter
      (fun d => d.bigSmall == Label.BIG)).length
    let ratio := (bigCount : ℚ) / (window : ℚ)
    some { prediction := if (window : ℚ) / 2 ≤ (bigCount : ℚ) then Label.BIG
             else Label.SMALL
           confidence := |ratio - 1 / 2| * 2
           weight := 1 / (window : ℚ) }

/-- predictWithFrequency from l.js over windows 10, 20, 30. -/
def predictWithFrequency (data : List Record) : Prediction :=
  let predictions := ([10, 20, 30] : List ℕ).filterMap (freqVote data)
  if predictions.isEmpty then
    { prediction := Label.BIG, confidence := 50 / 100,
      source := "frequency_insufficient" }
  else
    let bigScore := ((predictions.filter (fun p => p.prediction == Label.BIG)).map
      (fun p => p.confidence * p.weight)).sum
    let smallScore := ((predictions.filter
      (fun p => p.prediction == Label.SMALL)).map
      (fun p => p.confidence * p.weight)).sum
    let totalScore := bigScore + smallScore
    let finalConf := if 0 < totalScore then max bigScore smallScore / totalScore
      else 1 / 2
    { prediction := if smallScore < bigScore then Label.BIG else Label.SMALL
      confidence := min (finalConf + 5 / 100) (75 / 100)
      source := "frequency" }

/-- predictWithTrend from l.js over the three trained trend windows. -/
def predictWithTrend (ta : TrendWindows) : Prediction :=
  let shortBig := (ta.shortTerm.filter (fun b => b == 1)).length
  let mediumBig := (ta.mediumTerm.filter (fun b => b == 1)).length
  let longBig := (ta.longTerm.filter (fun b => b == 1)).length
  let shortRatio := (shortBig : ℚ) /
    (if ta.shortTerm.length = 0 then (1 : ℚ) else (ta.shortTerm.length : ℚ))
  let mediumRatio := (mediumBig : ℚ) /
    (if ta.mediumTerm.length = 0 then (1 : ℚ) else (ta.mediumTerm.length : ℚ))
  let longRatio := (longBig : ℚ) /
    (if ta.longTerm.length = 0 then (1 : ℚ) else (ta.longTerm.length : ℚ))
  let deviation := |shortRatio - mediumRatio|
  let pc : Label × ℚ :=
    if 3 / 10 < deviation then
      (if mediumRatio < shortRatio then Label.SMALL else Label.BIG,
       min (deviation + 20 / 100) (75 / 100))
    else
      let avgRatio := shortRatio * (5 / 10) + mediumRatio * (3 / 10) +
        longRatio * (2 / 10)
      (if 1 / 2 ≤ avgRatio then Label.BIG else Label.SMALL,
       |avgRatio - 1 / 2| * 2 + 5 / 100)
  { prediction := pc.1
    confidence := max (52 / 100) (min pc.2 (78 / 100))
    source := "trend" }

/-- predictWithQuantum from l.js (the amplitude `beta` is computed but
    unused, as in the source). -/
def predictWithQuantum (P : MathPrims) (data : List Record) (ms : MarketState) :
    Prediction :=
  let binary := data.map (fun d => d.binary)
  let pBig := ((binary.filter (fun b => b == 1)).length : ℚ) / (binary.length : ℚ)
  let pSmall := 1 - pBig
  let alpha := P.sqrt pBig
  let _beta := P.sqrt pSmall
  let decoherence := 1 - ms.entropy
  let observedP := alpha * alpha * decoherence + (1 / 2) * (1 - decoherence)
  let confidence := |observedP - 1 / 2| * 2 + 5 / 100
  { prediction := if 1 / 2 ≤ observedP then Label.BIG else Label.SMALL
    confidence := min confidence (80 / 100)
    source := "quantum" }

-- ═══════════════════════════════════════════════════════════════
-- ENSEMBLE PREDICTION
-- ═══════════════════════════════════════════════════════════════

/-- The six model outputs of one ensemble pass. -/
structure SixPreds where
  pattern : Prediction
  markov : Prediction
  frequency : Prediction
  neural : Prediction
  trend : Prediction
  quantum : Prediction
deriving DecidableEq, Repr

/-- The `Object.entries(predictions)` list in insertion order. -/
def predsEntries (s : SixPreds) : List (ModelName × Prediction) :=
  [(ModelName.pattern, s.pattern), (ModelName.markov, s.markov),
   (ModelName.frequency, s.frequency), (ModelName.neural, s.neural),
   (ModelName.trend, s.trend), (ModelName.quantum, s.quantum)]

/-- Per-model weighted score: `(pred.confidence || 0.5) * (weight || 0.15)`. -/
def scoreOf (weights : ModelName → ℚ) (m : ModelName) (p : Prediction) : ℚ :=
  jsOr p.confidence (1 / 2) * jsOr (weights m) (15 / 100)

/-- Sum of the scores of the BIG-voting models. -/
def bigScoreOf (weights : ModelName → ℚ) (s : SixPreds) : ℚ :=
  (((predsEntries s).filter (fun e => e.2.prediction == Label.BIG)).map
    (fun e => scoreOf weights e.1 e.2)).sum

/-- Sum of the scores of the non-BIG-voting models (the JS else-branch). -/
def smallScoreOf (weights : ModelName → ℚ) (s : SixPreds) : ℚ :=
  (((predsEntries s).filter (fun e => !(e.2.prediction == Label.BIG))).map
    (fun e => scoreOf weights e.1 e.2)).sum

/-- The raw ensemble label: higher-scoring side. -/
def rawPredictionOf (weights : ModelName → ℚ) (s : SixPreds) : Label :=
  if smallScoreOf weights s < bigScoreOf weights s then Label.BIG else Label.SMALL

/-- The raw ensemble confidence: winning score over total (0.5 on a zero
    total). -/
def rawConfidenceOf (weights : ModelName → ℚ) (s : SixPreds) : ℚ :=
  let totalScore := bigScoreOf weights s + smallScoreOf weights s
  if 0 < totalScore then
    max (bigScoreOf weights s) (smallScoreOf weights s) / totalScore
  else 1 / 2

/-- Number of BIG votes among the six predictors. -/
def bigVotesOf (s : SixPreds) : ℕ :=
  (((predsEntries s).map (fun e => e.2)).filter
    (fun p => p.prediction == Label.BIG)).length

/-- Agreement: majority-side fraction of the six votes. -/
def agreementOf (s : SixPreds) : ℚ :=
  let votes := (predsEntries s).map (fun e => e.2)
  if 0 < votes.length then
    ((max (bigVotesOf s) (votes.length - bigVotesOf s) : ℕ) : ℚ) /
      (votes.length : ℚ)
  else 1 / 2

/-- The ensemble decision record. -/
structure Decision where
  prediction : Label
  confidence : ℤ
  tier : String
  recommendation : String
  agreement : ℤ
  marketCondition : TrendLabel
  modelOutputs : SixPreds
  weights : ModelName → ℚ
  reasoning : String

/-- The pure tail of generateEnsemblePrediction, from the six model outputs
    and the current state: scoring, agreement, confidence shaping, recovery
    mode, tiering and the reasoning trace. -/
def ensembleCore (s : SixPreds) (st : SysState) : Decision :=
  let rawPrediction := rawPredictionOf st.modelWeights s
  let rawConfidence := rawConfidenceOf st.modelWeights s
  let agreement := agreementOf s
  let f0 := if 8 / 10 ≤ agreement then rawConfidence + 8 / 100
    else if 6 / 10 ≤ agreement then rawConfidence + 4 / 100
    else rawConfidence
  let f1 := if st.marketState.isExploitable = false then f0 * (85 / 100) else f0
  let f2 := if 6 / 10 < st.marketState.volatility then f1 * (90 / 100) else f1
  let f3 := if 5 ≤ st.consecutiveWins then f2 + 5 / 100 else f2
  let f4 := if 1 ≤ st.consecutiveLosses then f3 - 5 / 100 else f3
  let finalConfidence := max (50 / 100) (min (92 / 100) f4)
  let recoveryMode := getRecoveryMode st
  let finalPrediction := applyRecoveryMode rawPrediction recoveryMode
  let conf := finalConfidence * 100
  let tierRec : String × String :=
    if 78 ≤ conf ∧ 8 / 10 ≤ agreement then ("ULTRA_HIGH", "💎💎 MAX CONFIDENCE")
    else if 70 ≤ conf ∧ 7 / 10 ≤ agreement then ("HIGH", "🎯 HIGH CONFIDENCE")
    else if 63 ≤ conf ∧ 6 / 10 ≤ agreement then ("MEDIUM", "✅ MEDIUM CONFIDENCE")
    else if 55 ≤ conf then ("LOW", "⚠️ LOW CONFIDENCE")
    else ("VERY_LOW", "🔴 VERY LOW - PROCEED WITH CAUTION")
  let reasons :=
    (if st.marketState.isExploitable = true then
      ["Exploitable randomness detected"] else []) ++
    (if 7 / 10 ≤ agreement then ["Strong model consensus"] else []) ++
    (if 5 ≤ st.consecutiveWins then ["High-win streak active"] else []) ++
    (if recoveryMode ≠ "NORMAL" then ["Recovery mode: " ++ recoveryMode] else [])
  let reasons1 := if reasons.isEmpty then
    ["Default prediction based on ensemble"] else reasons
  { prediction := finalPrediction
    confidence := jsRound (finalConfidence * 100)
    tier := tierRec.1
    recommendation := tierRec.2
    agreement := jsRound (agreement * 100)
    marketCondition := st.marketState.recentTrend
    modelOutputs := s
    weights := st.modelWeights
    reasoning := String.intercalate "; " reasons1 ++ "." }

/-- The six predictor invocations of generateEnsemblePrediction, in source
    order; `none` models an exception escaping from a predictor, and the
    possibly-updated LSTM cell slot is returned alongside. -/
def sixPredictions (P : MathPrims) (data : List Record) (st : SysState) :
    Option (SixPreds × Option LSTMCell) :=
  let p := predictWithPatterns data st.patternDatabase
  match predictWithMarkov data st.markovChains with
  | none => none
  | some m =>
    let nl := predictWithLSTM P data st.lstmCell
    some ({ pattern := p
            markov := m
            frequency := predictWithFrequency data
            neural := nl.1
            trend := predictWithTrend st.trendAnalyzer
            quantum := predictWithQuantum P data st.marketState }, nl.2)

/-- generateEnsemblePrediction from l.js. -/
def generateEnsemblePrediction (P : MathPrims) (data : List Record)
    (st : SysState) : Option (Decision × Option LSTMCell) :=
  (sixPredictions P data st).map (fun x => (ensembleCore x.1 st, x.2))

/-- C1: on any non-empty buffer, whatever the model tables, market state
    and streak counters hold, the Markov predictor (the only predictor that
    dereferences the newest record) produces a decision, and the full
    ensemble prediction terminates with a decision — no failure escapes. -/
theorem predict_total (P : MathPrims) (data : List Record) (st : SysState)
    (h : data ≠ []) :
    (predictWithMarkov data st.markovChains).isSome = true ∧
    (generateEnsemblePrediction P data st).isSome = true := by
  have hm : (predictWithMarkov data st.markovChains).isSome = true := by
    rcases h3 : markovTry data st.markovChains 3 with _ | r
    · rcases h2 : markovTry data st.markovChains 2 with _ | r
      · rcases h1 : markovTry data st.markovChains 1 with _ | r
        · rcases data with _ | ⟨d, t⟩
          · exact absurd rfl h
          · simp [predictWithMarkov, h3, h2, h1]
        · simp [predictWithMarkov, h3, h2, h1]
      · simp [predictWithMarkov, h3, h2]
    · simp [predictWithMarkov, h3]
  refine ⟨hm, ?_⟩
  rcases Option.isSome_iff_exists.mp hm with ⟨r, hr⟩
  simp [generateEnsemblePrediction, sixPredictions, hr]

/-- Witness for C1 on a one-record buffer and the initial state. -/
theorem predict_total_witness :
    (predictWithMarkov [⟨"w1", 7, Label.BIG, 1, 0⟩]
      initialState.markovChains).isSome = true ∧
    (generateEnsemblePrediction testPrims [⟨"w1", 7, Label.BIG, 1, 0⟩]
      initialState).isSome = true :=
  predict_total testPrims [⟨"w1", 7, Label.BIG, 1, 0⟩] initialState (by simp)

/-- C5: whenever all six predictors agree (agreement 1.0), the market state
    is exploitable, there is no loss streak and the raw ensemble confidence
    is at least 0.78, the tier is ULTRA_HIGH. -/
theorem ensemble_ultra_high (s : SixPreds) (st : SysState)
    (hagree : agreementOf s = 1)
    (hexp : st.marketState.isExploitable = true)
    (hloss : st.consecutiveLosses = 0)
    (hraw : 78 / 100 ≤ rawConfidenceOf st.modelWeights s) :
    (ensembleCore s st).tier = "ULTRA_HIGH" := by
  have hb6 : bigVotesOf s ≤ 6 := by
    unfold bigVotesOf
    calc (((predsEntries s).map (fun e => e.2)).filter
        (fun p => p.prediction == Label.BIG)).length
        ≤ ((predsEntries s).map (fun e => e.2)).length :=
          List.length_filter_le _ _
      _ = 6 := by simp [predsEntries]
  have hmaxnat : max (bigVotesOf s) (6 - bigVotesOf s) = 6 := by
    unfold agreementOf at hagree
    simp only [predsEntries, List.map_cons, List.map_nil, List.length_cons,
      List.length_nil] at hagree
    norm_num at hagree
    have h6 : ((max (bigVotesOf s) (6 - bigVotesOf s) : ℕ) : ℚ) = 6 := by
      field_simp at hagree
      exact_mod_cast hagree
    exact_mod_cast h6
  have hvotes : bigVotesOf s = 6 ∨ bigVotesOf s = 0 := by omega
  have hraw1 : rawConfidenceOf st.modelWeights s = 1 := by
    rcases hvotes with hv | hv
    · have hall : ∀ e ∈ predsEntries s, (e.2.prediction == Label.BIG) = true := by
        have hlen : (((predsEntries s).map (fun e => e.2)).filter
            (fun p => p.prediction == Label.BIG)).length
            = ((predsEntries s).map (fun e => e.2)).length := by
          unfold bigVotesOf at hv
          rw [hv]
          simp [predsEntries]
        intro e he
        exact List.filter_length_eq_length.mp hlen e.2 (List.mem_map_of_mem _ he)
      have hsm : smallScoreOf st.modelWeights s = 0 := by
        unfold smallScoreOf
        rw [List.filter_eq_nil_iff.mpr
          (by intro e he; simp [hall e he])]
        simp
      have hpos : 0 < bigScoreOf st.modelWeights s := by
        by_contra hneg
        push_neg at hneg
        unfold rawConfidenceOf at hraw
        rw [hsm, add_zero, if_neg (not_lt.mpr hneg)] at hraw
        norm_num at hraw
      unfold rawConfidenceOf
      rw [hsm, add_zero, if_pos hpos, max_eq_left (le_of_lt hpos),
        div_self (ne_of_gt hpos)]
    · have hnone : ∀ e ∈ predsEntries s, (e.2.prediction == Label.BIG) = false := by
        have hnil : ((predsEntries s).map (fun e => e.2)).filter
            (fun p => p.prediction == Label.BIG) = [] := by
          unfold bigVotesOf at hv
          exact List.length_eq_zero.mp hv
        intro e he
        by_contra hc
        rw [Bool.not_eq_false] at hc
        have hmem : e.2 ∈ ((predsEntries s).map (fun e => e.2)).filter
            (fun p => p.prediction == Label.BIG) :=
          List.mem_filter.mpr ⟨List.mem_map_of_mem _ he, hc⟩
        rw [hnil] at hmem
        cases hmem
      have hbg : bigScoreOf st.modelWeights s = 0 := by
        unfold bigScoreOf
        rw [List.filter_eq_nil_iff.mpr
          (by intro e he; simp [hnone e he])]
        simp
      have hpos : 0 < smallScoreOf st.modelWeights s := by
        by_contra hneg
        push_neg at hneg
        unfold rawConfidenceOf at hraw
        rw [hbg, zero_add, if_neg (not_lt.mpr hneg)] at hraw
        norm_num at hraw
      unfold rawConfidenceOf
      rw [hbg, zero_add, if_pos hpos, max_eq_right (le_of_lt hpos),
        div_self (ne_of_gt hpos)]
  rcases lt_or_le (6 / 10 : ℚ) st.marketState.volatility with hvol | hvol <;>
    rcases le_or_lt 5 st.consecutiveWins with hwins | hwins
  · simp only [ensembleCore, hraw1, hagree, hexp, hloss, hvol, hwins]
    norm_num
  · simp only [ensembleCore, hraw1, hagree, hexp, hloss, hvol, not_le.mpr hwins]
    norm_num
  · simp only [ensembleCore, hraw1, hagree, hexp, hloss, not_lt.mpr hvol, hwins]
    norm_num
  · simp only [ensembleCore, hraw1, hagree, hexp, hloss, not_lt.mpr hvol,
      not_le.mpr hwins]
    norm_num

/-- Witness for C5: six unanimous BIG predictions at confidence 0.5 with
    the initial weights, an exploitable market and no losses. -/
theorem ensemble_ultra_high_witness :
    (ensembleCore
      { pattern := ⟨Label.BIG, 1 / 2, "pattern"⟩
        markov := ⟨Label.BIG, 1 / 2, "markov_order3"⟩
        frequency := ⟨Label.BIG, 1 / 2, "frequency"⟩
        neural := ⟨Label.BIG, 1 / 2, "lstm"⟩
        trend := ⟨Label.BIG, 1 / 2, "trend"⟩
        quantum := ⟨Label.BIG, 1 / 2, "quantum"⟩ }
      { initialState with
        marketState := { initialMarketState with isExploitable := true } }).tier
      = "ULTRA_HIGH" := by
  apply ensemble_ultra_high
  · norm_num [agreementOf, bigVotesOf, predsEntries]
  · rfl
  · rfl
  · norm_num [rawConfidenceOf, bigScoreOf, smallScoreOf, predsEntries, scoreOf,
      jsOr, initialState, INITIAL_WEIGHTS]

/-- C6: with fewer than 30 buffered records, `analyzeMarketState` returns
    the prior market state with every field untouched. -/
theorem analyze_small_buffer_noop (P : MathPrims) (data : List (Option Record))
    (prior : MarketState) (h : data.length < 30) :
    analyzeMarketState P data prior = some prior := by
  simp [analyzeMarketState, h]

/-- Witness for C6 on an empty buffer. -/
theorem analyze_small_buffer_noop_witness :
    analyzeMarketState testPrims [] initialMarketState = some initialMarketState :=
  analyze_small_buffer_noop testPrims [] initialMarketState (by simp)

-- ═══════════════════════════════════════════════════════════════
-- MODEL TRAINING
-- ═══════════════════════════════════════════════════════════════

/-- Add one (key, next digit) observation to a count table
    (`stats.counts[next]++; stats.total++`, creating the entry first). -/
def bumpStat (tbl : StatTable) (key : List (Fin 10)) (next : Fin 10) : StatTable :=
  let cur := (tbl key).getD { counts := fun _ => 0, total := 0 }
  fun k =>
    if k = key then
      some { counts := fun i => if i = next then cur.counts i + 1 else cur.counts i
             total := cur.total + 1 }
    else tbl k

/-- Inner loop of trainPatternRecognition for one window length: ascending
    start index over the digit list, recording (window, following digit)
    pairs while at least len+1 digits remain. -/
def buildPat (len : ℕ) (ns : List (Fin 10)) (tbl : StatTable) : StatTable :=
  match ns with
  | [] => tbl
  | _ :: rest =>
    if ns.length < len + 1 then tbl
    else
      match ns.get? len with
      | some nx => buildPat len rest (bumpStat tbl (ns.take len) nx)
      | none => tbl

/-- trainPatternRecognition from l.js: `data.map(d => d.number)` runs first
    (throwing on any null record, before the table is cleared), then the
    table is rebuilt from scratch. -/
def trainPatternRecognition (data : List (Option Record)) (st : SysState) :
    Bool × SysState :=
  match seqOpt (data.map (fun o => o.map (fun d => d.number))) with
  | none => (false, st)
  | some numbers =>
    (true, { st with patternDatabase :=
      SEQUENCE_LENGTHS.foldl (fun tbl len => buildPat len numbers tbl) emptyTable })

/-- Inner loop of trainMarkovChains for one order, over the possibly-null
    records themselves: the slice is mapped (throwing at the first null in
    the window) and then the following record is dereferenced; on a throw
    the partially rebuilt table is kept, as the JS mutation would. -/
def buildMark (order : ℕ) (ds : List (Option Record)) (tbl : StatTable) :
    Bool × StatTable :=
  match ds with
  | [] => (true, tbl)
  | _ :: rest =>
    if ds.length < order + 1 then (true, tbl)
    else
      match seqOpt (ds.take order) with
      | none => (false, tbl)
      | some window =>
        match ds.get? order with
        | some (some nxt) =>
          buildMark order rest
            (bumpStat tbl (window.map (fun d => d.number)) nxt.number)
        | some none => (false, tbl)
        | none => (false, tbl)

/-- trainMarkovChains from l.js: the table is cleared first, then orders
    1..MARKOV_ORDER are processed; an exception stops the pass but the
    cleared/partial table remains. -/
def trainMarkovChains (data : List (Option Record)) (st : SysState) :
    Bool × SysState :=
  let r := ([1, 2, 3] : List ℕ).foldl
    (fun acc order => if acc.1 then buildMark order data acc.2 else acc)
    (true, emptyTable)
  (r.1, { st with markovChains := r.2 })

/-- trainTrendAnalyzer from l.js: `data.map(d => d.binary)` runs before any
    mutation. -/
def trainTrendAnalyzer (data : List (Option Record)) (st : SysState) :
    Bool × SysState :=
  match seqOpt (data.map (fun o => o.map (fun d => d.binary))) with
  | none => (false, st)
  | some binary =>
    (true, { st with trendAnalyzer :=
      { shortTerm := binary.take 10
        mediumTerm := binary.take 30
        longTerm := binary.take 60 } })

/-- The try-block of trainAllModels: the three trainers in the evaluation
    order of the `Promise.all([Promise.resolve(...)])` argument list (each
    runs synchronously while the array is built), then the market analyzer;
    a thrown exception (`false`) stops the pass with the state as mutated
    so far. -/
def trainBody (P : MathPrims) (data : List (Option Record)) (s1 : SysState) :
    Bool × SysState :=
  match trainPatternRecognition data s1 with
  | (false, s) => (false, s)
  | (true, s) =>
    match trainMarkovChains data s with
    | (false, s2) => (false, s2)
    | (true, s2) =>
      match trainTrendAnalyzer data s2 with
      | (false, s3) => (false, s3)
      | (true, s3) =>
        match analyzeMarketState P data s3.marketState with
        | none => (false, s3)
        | some ms => (true, { s3 with marketState := ms })

/-- trainAllModels from l.js: single-flight guard, the try-block, the catch
    that converts an exception into `false`, and the `finally` that always
    clears the single-flight flag. -/
def trainAllModels (P : MathPrims) (data : List (Option Record)) (st : SysState) :
    Bool × SysState :=
  if st.isTraining then (false, st)
  else
    let r := trainBody P data { st with isTraining := true }
    (r.1, { r.2 with isTraining := false })

lemma optionMap_none_mem {α β : Type} (data : List (Option α)) (f : α → β)
    (h : none ∈ data) : none ∈ data.map (Option.map f) :=
  List.mem_map.mpr ⟨none, h, rfl⟩

lemma optionMap_none_not_mem {α β : Type} (data : List (Option α)) (f : α → β)
    (h : none ∉ data) : none ∉ data.map (Option.map f) := by
  intro hc
  rcases List.mem_map.mp hc with ⟨o, ho, hfo⟩
  cases o with
  | none => exact h ho
  | some v => exact Option.noConfusion hfo

lemma buildMark_total (order : ℕ) (ds : List (Option Record)) (tbl : StatTable)
    (h : none ∉ ds) : (buildMark order ds tbl).1 = true := by
  induction ds generalizing tbl with
  | nil => rfl
  | cons a rest ih =>
    rw [buildMark]
    by_cases hlen : (a :: rest).length < order + 1
    · rw [if_pos hlen]
    · rw [if_neg hlen]
      have htake : seqOpt ((a :: rest).take order)
          = some ((a :: rest).take order).reduceOption := by
        apply seqOpt_of_all_some
        intro hc
        exact h (List.mem_of_mem_take hc)
      rw [htake]
      have hget : ∃ o, (a :: rest).get? order = some o := by
        rcases ho : (a :: rest).get? order with _ | o
        · rw [List.get?_eq_none] at ho
          omega
        · exact ⟨o, rfl⟩
      rcases hget with ⟨o, ho⟩
      rcases o with _ | r
      · exact absurd (List.get?_mem ho) h
      · rw [ho]
        exact ih _ (fun hc => h (List.mem_cons_of_mem a hc))

lemma trainPattern_fail (data : List (Option Record)) (s : SysState)
    (h : none ∈ data) : trainPatternRecognition data s = (false, s) := by
  unfold trainPatternRecognition
  rw [seqOpt_of_none _ (optionMap_none_mem data _ h)]

lemma trainPattern_fst (data : List (Option Record)) (s : SysState)
    (h : none ∉ data) : (trainPatternRecognition data s).1 = true := by
  unfold trainPatternRecognition
  rw [seqOpt_of_all_some _ (optionMap_none_not_mem data _ h)]

lemma trainMark_fst (data : List (Option Record)) (s : SysState)
    (h : none ∉ data) : (trainMarkovChains data s).1 = true := by
  unfold trainMarkovChains
  simp only [List.foldl_cons, List.foldl_nil, if_true]
  rw [if_pos (buildMark_total 1 data emptyTable h)]
  rw [if_pos (buildMark_total 2 data _ h)]
  exact buildMark_total 3 data _ h

lemma trainTrend_fst (data : List (Option Record)) (s : SysState)
    (h : none ∉ data) : (trainTrendAnalyzer data s).1 = true := by
  unfold trainTrendAnalyzer
  rw [seqOpt_of_all_some _ (optionMap_none_not_mem data _ h)]

lemma analyzeMarketState_total (P : MathPrims) (data : List (Option Record))
    (ms : MarketState) (h : none ∉ data) :
    (analyzeMarketState P data ms).isSome = true := by
  unfold analyzeMarketState
  by_cases hlen : data.length < 30
  · rw [if_pos hlen]
    rfl
  · rw [if_neg hlen]
    have htake : seqOpt (data.take (min 50 data.length))
        = some (data.take (min 50 data.length)).reduceOption := by
      apply seqOpt_of_all_some
      intro hc
      exact h (List.mem_of_mem_take hc)
    rw [htake]
    rfl

/-- C4: starting from a non-training state, a training pass always releases
    the single-flight flag, and whenever it fails (any sub-step throwing on
    a null record) the pattern table, Markov table, trend windows and
    market state are all left exactly as they were. -/
theorem trainAllModels_safe (P : MathPrims) (data : List (Option Record))
    (st : SysState) (h : st.isTraining = false) :
    (trainAllModels P data st).2.isTraining = false ∧
    ((trainAllModels P data st).1 = false →
      ((trainAllModels P data st).2.patternDatabase = st.patternDatabase ∧
       (trainAllModels P data st).2.markovChains = st.markovChains ∧
       (trainAllModels P data st).2.trendAnalyzer = st.trendAnalyzer ∧
       (trainAllModels P data st).2.marketState = st.marketState)) := by
  have hflag : (trainAllModels P data st).2.isTraining = false := by
    unfold trainAllModels
    rw [if_neg (by rw [h]; exact Bool.false_ne_true)]
  refine ⟨hflag, ?_⟩
  by_cases hnone : none ∈ data
  · have hbody : trainBody P data { st with isTraining := true }
        = (false, { st with isTraining := true }) := by
      unfold trainBody
      rw [trainPattern_fail data _ hnone]
    intro _
    unfold trainAllModels
    rw [if_neg (by rw [h]; exact Bool.false_ne_true)]
    simp only [hbody]
    exact ⟨trivial, trivial, trivial, trivial⟩
  · have hbody : (trainBody P data { st with isTraining := true }).1 = true := by
      unfold trainBody
      rcases hp : trainPatternRecognition data { st with isTraining := true }
        with ⟨pb, s⟩
      have hpb : pb = true := by
        have h2 := trainPattern_fst data { st with isTraining := true } hnone
        rw [hp] at h2
        exact h2
      subst hpb
      rcases hm : trainMarkovChains data s with ⟨mb, s2⟩
      have hmb : mb = true := by
        have h2 := trainMark_fst data s hnone
        rw [hm] at h2
        exact h2
      subst hmb
      rcases ht : trainTrendAnalyzer data s2 with ⟨tb, s3⟩
      have htb : tb = true := by
        have h2 := trainTrend_fst data s2 hnone
        rw [ht] at h2
        exact h2
      subst htb
      rcases ha : analyzeMarketState P data s3.marketState with _ | ms
      · exfalso
        have h2 := analyzeMarketState_total P data s3.marketState hnone
        rw [ha] at h2
        cases h2
      · simp only [hp, hm, ht, ha]
    intro hc
    exfalso
    unfold trainAllModels at hc
    rw [if_neg (by rw [h]; exact Bool.false_ne_true)] at hc
    simp only [hbody] at hc
    cases hc

/-- Witness for C4: a failing pass (single null record) from the initial
    state keeps every table untouched and releases the flag. -/
theorem trainAllModels_safe_witness :
    (trainAllModels testPrims [none] initialState).2.isTraining = false ∧
    ((trainAllModels testPrims [none] initialState).1 = false →
      ((trainAllModels testPrims [none] initialState).2.patternDatabase
          = initialState.patternDatabase ∧
       (trainAllModels testPrims [none] initialState).2.markovChains
          = initialState.markovChains ∧
       (trainAllModels testPrims [none] initialState).2.trendAnalyzer
          = initialState.trendAnalyzer ∧
       (trainAllModels testPrims [none] initialState).2.marketState
          = initialState.marketState)) :=
  trainAllModels_safe testPrims [none] initialState rfl

end Wingo
